import Mathlib

/-!
Verification development for the wikipediagpts service (src/app.py).

The service is a thin FastAPI app over a SQLite store:
* `GET /next_article` — retry loop over an upstream random-summary API,
  per-user exposure deduplication;
* `GET /article_content` — server-side fetch of an article URL, HTML
  extraction and Markdown/plain-text normalization;
* `POST /react` — records a like/skip/block reaction on an exposure row.

External collaborators (the HTTP framework, httpx, BeautifulSoup,
markdownify, SQLite) are modelled: pure Lean functions embed the
repository's own code, and library calls appear either as faithful
models of the documented library semantics or as function parameters.
-/

namespace Wikipediagpts

/-! ### Store model

Modelled from the spec: the persisted schema (schema.sql is referenced by
`get_db` but is not under src/).  Spec section 6 gives the conceptual
schema: users(id, handle unique); articles(id, lang, page_id, title, url,
unique(lang, page_id)); user_articles(user_id, article_id, reacted,
reaction, unique(user_id, article_id)).  Autoincrement row ids are
modelled with explicit counters; `insert or ignore` on a unique key is a
conditional append. -/

/-- One of the reaction literals accepted by `POST /react`
(`Literal["like", "skip", "block"]` in src/app.py). -/
inductive Reaction where
  | like
  | skip
  | block
deriving DecidableEq, Repr

/-- A row of the `users` table: id plus unique client-supplied handle. -/
structure UserRow where
  id : Nat
  handle : String
deriving DecidableEq, Repr

/-- A row of the `articles` table, unique per (lang, page_id). -/
structure ArticleRow where
  id : Nat
  lang : String
  page_id : Nat
  title : String
  url : String
deriving DecidableEq, Repr

/-- A row of the `user_articles` exposure table, unique per
(user_id, article_id). -/
structure UserArticleRow where
  user_id : Nat
  article_id : Nat
  reacted : Bool
  reaction : Option Reaction
deriving DecidableEq, Repr

/-- The SQLite database state: table contents plus the next autoincrement
id for each table that hands out ids. -/
structure DB where
  users : List UserRow
  articles : List ArticleRow
  user_articles : List UserArticleRow
  next_user_id : Nat
  next_article_id : Nat
deriving DecidableEq, Repr

/-- The empty database (fresh schema). -/
def DB.empty : DB := ⟨[], [], [], 1, 1⟩

/-- FastAPI's `HTTPException(status_code=..., detail=...)`. -/
structure HTTPException where
  status_code : Nat
  detail : String
deriving DecidableEq, Repr

/-- The hardcoded upstream language (`LANG = "ja"` in src/app.py). -/
def LANG : String := "ja"

/-- The statement `insert or ignore into users(handle) values(?)`: appends a fresh row
unless a row with this handle already exists (unique key on handle). -/
def insertUserIgnore (db : DB) (handle : String) : DB :=
  if db.users.any (fun u => u.handle == handle) then db
  else { db with
          users := db.users ++ [⟨db.next_user_id, handle⟩],
          next_user_id := db.next_user_id + 1 }

/-- The query `select id from users where handle=?` (first matching row). -/
def findUser (db : DB) (handle : String) : Option UserRow :=
  db.users.find? (fun u => u.handle == handle)

/-- Embeds `get_or_create_user` from src/app.py: insert-or-ignore the handle,
then select its id; raises HTTP 500 if the select comes back empty. -/
def get_or_create_user (db : DB) (handle : String) :
    DB × Except HTTPException Nat :=
  let db1 := insertUserIgnore db handle
  match findUser db1 handle with
  | none => (db1, .error ⟨500, "failed to get user id"⟩)
  | some row => (db1, .ok row.id)

/-! ### Upstream summary model

`fetch_random_summary` returns the JSON body of the upstream
random-summary endpoint.  The fields the service reads are modelled as
optional values (`js.get(...)` returns `None` when a key is absent); the
nested access `(js.get("content_urls") or {}).get("desktop", {}).get("page")`
is flattened into `desktop_page`, and
`(js.get("thumbnail") or {}).get("source")` into `thumbnail_source`. -/

/-- The parts of one upstream random-article summary that src/app.py
reads. -/
structure Summary where
  type : Option String
  pageid : Option Nat
  title : Option String
  desktop_page : Option String
  extract : Option String
  thumbnail_source : Option String
deriving DecidableEq, Repr

/-- Python truthiness of an optional integer field: `None` and `0` are
falsy. -/
def truthyNat : Option Nat → Bool
  | none => false
  | some n => n != 0

/-- Python truthiness of an optional string field: `None` and `""` are
falsy. -/
def truthyStr : Option String → Bool
  | none => false
  | some s => s != ""

/-- The guard `js.get("type") not in (None, "standard")` of the selector
loop: `true` means the summary is rejected as non-standard. -/
def type_rejected (js : Summary) : Bool :=
  !(js.type == none || js.type == some "standard")

/-- The guard `not (pageid and title and url)` of the selector loop,
negated: `true` means all three required fields are present and truthy. -/
def fields_ok (js : Summary) : Bool :=
  truthyNat js.pageid && truthyStr js.title && truthyStr js.desktop_page

/-- The statement `insert or ignore into articles(lang, page_id, title, url)`: appends
a fresh row unless a row with this (lang, page_id) already exists. -/
def insertArticleIgnore (db : DB) (lang : String) (page_id : Nat)
    (title url : String) : DB :=
  if db.articles.any (fun a => a.lang == lang && a.page_id == page_id) then db
  else { db with
          articles := db.articles ++ [⟨db.next_article_id, lang, page_id, title, url⟩],
          next_article_id := db.next_article_id + 1 }

/-- The query `select id from articles where lang=? and page_id=?` (first matching
row). -/
def findArticle (db : DB) (lang : String) (page_id : Nat) : Option ArticleRow :=
  db.articles.find? (fun a => a.lang == lang && a.page_id == page_id)

/-- The article upsert inlined in `next_article` (spec name
`ensure_article`): insert-or-ignore, then select the id by the unique
key. -/
def ensure_article (db : DB) (lang : String) (page_id : Nat)
    (title url : String) : DB × Option Nat :=
  let db1 := insertArticleIgnore db lang page_id title url
  (db1, (findArticle db1 lang page_id).map (fun a => a.id))

/-- The query `select 1 from user_articles where user_id=? and article_id=?`
followed by a non-`None` check on `fetchone()`. -/
def hasExposure (db : DB) (uid aid : Nat) : Bool :=
  db.user_articles.any (fun r => r.user_id == uid && r.article_id == aid)

/-- The statement `insert into user_articles(user_id, article_id) values(?,?)`:
`reacted` and `reaction` take their column defaults. -/
def insertExposure (db : DB) (uid aid : Nat) : DB :=
  { db with user_articles := db.user_articles ++ [⟨uid, aid, false, none⟩] }

/-- The JSON object returned by a successful `next_article` call
(`summary.extract` / `summary.thumbnail` flattened into the last two
fields). -/
structure ArticlePayload where
  article_id : Nat
  title : String
  url : String
  extract : Option String
  thumbnail : Option String
deriving DecidableEq, Repr

/-- Outcome of one iteration of the selector loop: either a `continue`
(the attempt was rejected) or a served payload (the loop returns). -/
inductive AttemptResult where
  | rejected
  | served (payload : ArticlePayload)
deriving DecidableEq, Repr

/-- One iteration of the `for _ in range(12)` loop in `next_article`,
applied to the summary `js` fetched for this attempt: the type filter,
the required-field truthiness filter, the article upsert, the exposure
check, and on success the exposure insert plus response payload. -/
def attempt (uid : Nat) (js : Summary) (db : DB) : DB × AttemptResult :=
  if type_rejected js then (db, .rejected)
  else if !(fields_ok js) then (db, .rejected)
  else
    match js.pageid, js.title, js.desktop_page with
    | some pageid, some title, some url =>
        let res := ensure_article db LANG pageid title url
        match res.2 with
        | none => (res.1, .rejected)
        | some article_id =>
            if hasExposure res.1 uid article_id then (res.1, .rejected)
            else (insertExposure res.1 uid article_id,
                  .served ⟨article_id, title, url, js.extract, js.thumbnail_source⟩)
    | _, _, _ => (db, .rejected)

/-- The 404 raised when the retry budget is exhausted. -/
def noUnseenError : HTTPException :=
  ⟨404, "No unseen article found (try again)"⟩

/-- The selector loop: `i` is the index of the next upstream fetch in the
stream of summaries, `fuel` the remaining retry budget. -/
def next_article_loop (stream : Nat → Summary) (uid : Nat) :
    Nat → Nat → DB → DB × Except HTTPException ArticlePayload
  | _, 0, db => (db, .error noUnseenError)
  | i, fuel + 1, db =>
      match attempt uid (stream i) db with
      | (db1, .served p) => (db1, .ok p)
      | (db1, .rejected) => next_article_loop stream uid (i + 1) fuel db1

/-- Endpoint `GET /next_article`: resolve the user, then run the 12-attempt
selector loop.  `stream n` is the summary returned by the (n+1)-st call
to `fetch_random_summary` (the upstream is an external HTTP API, so it is
a parameter). -/
def next_article (stream : Nat → Summary) (db : DB) (user : String) :
    DB × Except HTTPException ArticlePayload :=
  match get_or_create_user db user with
  | (db1, .error e) => (db1, .error e)
  | (db1, .ok uid) => next_article_loop stream uid 0 12 db1

/-- Request body of `POST /react`. -/
structure ReactIn where
  article_id : Nat
  reaction : Reaction
deriving DecidableEq, Repr

/-- Response body `{"ok": True}`. -/
structure OkResp where
  ok : Bool
deriving DecidableEq, Repr

/-- The row transformation of
`update user_articles set reacted=1, reaction=? where user_id=? and article_id=?`:
every row matching the `where` clause gets `reacted=1` and the new
reaction; every other row is untouched. -/
def applyReaction (uid : Nat) (inp : ReactIn) (r : UserArticleRow) : UserArticleRow :=
  if r.user_id == uid && r.article_id == inp.article_id then
    { r with reacted := true, reaction := some inp.reaction }
  else r

/-- Endpoint `POST /react`: resolve the user, run the update statement, answer
`{"ok": True}` unconditionally. -/
def react (db : DB) (user : String) (inp : ReactIn) :
    DB × Except HTTPException OkResp :=
  match get_or_create_user db user with
  | (db1, .error e) => (db1, .error e)
  | (db1, .ok uid) =>
      ({ db1 with user_articles := db1.user_articles.map (applyReaction uid inp) },
       .ok ⟨true⟩)

/-- Holds (`true`) iff every one of the next `fuel` attempts of the selector
loop, starting at stream position `i` on state `db`, is rejected (the
loop never serves). -/
def allRejected (stream : Nat → Summary) (uid : Nat) : Nat → Nat → DB → Bool
  | _, 0, _ => true
  | i, fuel + 1, db =>
      match attempt uid (stream i) db with
      | (db1, .rejected) => allRejected stream uid (i + 1) fuel db1
      | (_, .served _) => false

/-- One client-visible, store-touching operation of the service: a
`GET /next_article` call (with its upstream summary stream) or a
`POST /react` call.  (`GET /article_content` never touches the store.) -/
inductive Op where
  | callNextArticle (stream : Nat → Summary) (user : String)
  | callReact (user : String) (inp : ReactIn)

/-- The store state after running one operation (response discarded). -/
def runOp (db : DB) : Op → DB
  | .callNextArticle s u => (next_article s db u).1
  | .callReact u inp => (react db u inp).1

/-! ### String normalization helpers

These embed the Python string operations used by `_html_to_markdown` and
`_html_to_text` (src/app.py lines 113-126).  The models cover the ASCII
whitespace characters; Python's `strip`/`rstrip`/`splitlines` also handle
some further Unicode whitespace and line boundaries, which none of the
claims exercise. -/

/-- ASCII whitespace as stripped by Python `str.strip()` /
`str.rstrip()`. -/
def isPyWs (c : Char) : Bool :=
  c == ' ' || c == '\t' || c == '\n' || c == '\r' || c == '\x0b' || c == '\x0c'

/-- Left-to-right scan behind the newline-collapsing substitution: `n` counts the
newlines already emitted for the current run; once two have been emitted,
further newlines of the same run are dropped. -/
def collapseAux : Nat → List Char → List Char
  | _, [] => []
  | n, c :: rest =>
      if c = '\n' then
        if n ≥ 2 then collapseAux n rest
        else '\n' :: collapseAux (n + 1) rest
      else c :: collapseAux 0 rest

/-- Embeds the regex substitution of newline runs: every maximal run of 3 or more
newlines becomes exactly two; shorter runs are kept. -/
def collapseNewlines (l : List Char) : List Char :=
  collapseAux 0 l

/-- Python `str.strip()` (ASCII whitespace). -/
def pyStrip (l : List Char) : List Char :=
  (((l.dropWhile isPyWs).reverse).dropWhile isPyWs).reverse

/-- Python `str.rstrip()` (ASCII whitespace); the lines it is applied to
contain no newline. -/
def pyRstrip (l : List Char) : List Char :=
  ((l.reverse).dropWhile isPyWs).reverse

/-- Helper for `splitlinesLF`: accumulates the current line (reversed). -/
def splitlinesAux : List Char → List Char → List (List Char)
  | [], acc => [acc.reverse]
  | c :: rest, acc =>
      if c = '\n' then acc.reverse :: splitlinesAux rest []
      else splitlinesAux rest (c :: acc)

/-- Python `str.splitlines()` restricted to LF line boundaries: splits on
newline and produces no trailing empty line for a trailing newline
(`"a\n".splitlines() == ["a"]`, `"".splitlines() == []`). -/
def splitlinesLF (l : List Char) : List (List Char) :=
  match l with
  | [] => []
  | _ =>
      if l.getLast? = some '\n' then (splitlinesAux l []).dropLast
      else splitlinesAux l []

/-- Joins lines with a newline separator (the join call of the text pipeline). -/
def joinLF (lines : List (List Char)) : List Char :=
  List.intercalate ['\n'] lines

/-- The post-conversion normalization of `_html_to_markdown` (src/app.py
lines 116-117), applied to the raw markdownify output: collapse newline
runs, then `strip()`. -/
def markdown_postprocess (s : List Char) : List Char :=
  pyStrip (collapseNewlines s)

/-- The post-conversion normalization of `_html_to_text` (src/app.py
lines 123-126), applied to the raw `get_text` output: collapse newline
runs, `rstrip()` each line and rejoin, then `strip()`. -/
def text_postprocess (s : List Char) : List Char :=
  pyStrip (joinLF ((splitlinesLF (collapseNewlines s)).map pyRstrip))

/-- Holds (`true`) iff the string contains three consecutive newline
characters. -/
def containsTriple : List Char → Bool
  | a :: b :: c :: rest =>
      (a == '\n' && b == '\n' && c == '\n') || containsTriple (b :: c :: rest)
  | _ => false

/-! ### HTML node model

BeautifulSoup's parse tree is modelled as a rose tree of elements and
text nodes; only the features src/app.py uses appear: tag name, `id`
attribute, `class` list, `role` attribute, CSS descendant search,
`decompose`, `get_text`, and re-serialization.  Parsing itself
(the BeautifulSoup constructor) is the external library and enters
as a function parameter where needed. -/

/-- A BeautifulSoup parse-tree node. -/
inductive Node where
  | text (s : String)
  | elem (tag : String) (idAttr : Option String) (classes : List String)
      (role : Option String) (children : List Node)
deriving Repr

mutual

/-- All descendant nodes of a node, in document (preorder) order. -/
def Node.descendants : Node → List Node
  | .text _ => []
  | .elem _ _ _ _ ch => descendantsList ch

/-- All nodes in a forest together with their descendants, in document
order. -/
def descendantsList : List Node → List Node
  | [] => []
  | n :: rest => n :: Node.descendants n ++ descendantsList rest

end

/-- Implements `select_one` for a simple selector: the first descendant
matching the predicate, in document order. -/
def selectOne (p : Node → Bool) (doc : Node) : Option Node :=
  (Node.descendants doc).find? p

mutual

/-- Decompose every descendant matching `p`: the matched subtrees are
removed wholesale, mirroring `for el in content.select(sel): el.decompose()`. -/
def removeAll (p : Node → Bool) : Node → Node
  | .text s => .text s
  | .elem t i c r ch => .elem t i c r (removeAllList p ch)

/-- Applies `removeAll` over a forest. -/
def removeAllList (p : Node → Bool) : List Node → List Node
  | [] => []
  | n :: rest =>
      if p n then removeAllList p rest
      else removeAll p n :: removeAllList p rest

end

mutual

/-- The text strings of all text descendants, in document order
(the `NavigableString`s that `get_text` concatenates). -/
def Node.texts : Node → List String
  | .text s => [s]
  | .elem _ _ _ _ ch => textsList ch

/-- Collects `Node.texts` over a forest. -/
def textsList : List Node → List String
  | [] => []
  | n :: rest => Node.texts n ++ textsList rest

end

/-- Implements `get_text(strip=True)` on an element: each string stripped, concatenated. -/
def getTextStrip (n : Node) : String :=
  String.join ((Node.texts n).map (fun s => String.mk (pyStrip s.data)))

/-- Implements `get_text` with newline separator: all strings joined with newlines. -/
def getTextLF (n : Node) : String :=
  String.intercalate "\n" (Node.texts n)

mutual

/-- Implements `str(content)`: re-serialize a node to HTML (attribute order fixed as
id, class, role; enough to give cleaned fragments a concrete string
form). -/
def serializeNode : Node → String
  | .text s => s
  | .elem t i c r ch =>
      "<" ++ t
        ++ (match i with | none => "" | some v => " id=" ++ v)
        ++ (match c with | [] => "" | cs => " class=" ++ String.intercalate " " cs)
        ++ (match r with | none => "" | some v => " role=" ++ v)
        ++ ">" ++ serializeList ch ++ "</" ++ t ++ ">"

/-- Applies `serializeNode` over a forest. -/
def serializeList : List Node → String
  | [] => ""
  | n :: rest => serializeNode n ++ serializeList rest

end

/-- Selector match: tag with a given class (`table.infobox`, ...). -/
def matchesTagClass (tag cls : String) : Node → Bool
  | .elem t _ cs _ _ => t == tag && cs.contains cls
  | .text _ => false

/-- Selector match: bare tag name (`script`, `style`, ...). -/
def matchesTag (tag : String) : Node → Bool
  | .elem t _ _ _ _ => t == tag
  | .text _ => false

/-- Selector match: tag with a given id (`div#mw-content-text`). -/
def matchesTagId (tag idv : String) : Node → Bool
  | .elem t i _ _ _ => t == tag && i == some idv
  | .text _ => false

/-- Selector match: id alone (`#firstHeading`). -/
def matchesId (idv : String) : Node → Bool
  | .elem _ i _ _ _ => i == some idv
  | .text _ => false

/-- Selector match: tag with a given role attribute
(the figure-with-navigation-role selector). -/
def matchesTagRole (tag rolev : String) : Node → Bool
  | .elem t _ _ r _ => t == tag && r == some rolev
  | .text _ => false

/-- The `selectors_to_remove` table of `_extract_wikipedia_main_html`,
as match predicates, in source order. -/
def selectors_to_remove : List (Node → Bool) :=
  [ matchesTagClass "table" "infobox",
    matchesTagClass "table" "vertical-navbox",
    matchesTagClass "table" "navbox",
    matchesTagClass "div" "hatnote",
    matchesTagClass "div" "reflist",
    matchesTagClass "ol" "references",
    matchesTagClass "div" "sidebar",
    matchesTagClass "div" "toc",
    matchesTagClass "span" "mw-editsection",
    matchesTagClass "div" "mw-kartographer-container",
    matchesTagRole "figure" "navigation",
    matchesTag "script",
    matchesTag "style",
    matchesTag "link",
    matchesTag "noscript" ]

/-- Embeds `_extract_wikipedia_main_html` on the already-parsed document `doc`
(parsing `html` is BeautifulSoup's job): pick the heading
(`#firstHeading`, falling back to `soup.title`), locate
`div#mw-content-text`; when absent, return the raw input `html` verbatim;
otherwise decompose the boilerplate selectors and the inline reference
markers and re-serialize. -/
def extract_wikipedia_main_html (doc : Node) (html : String) :
    Option String × String :=
  let title_el := (selectOne (matchesId "firstHeading") doc).orElse
    (fun _ => selectOne (matchesTag "title") doc)
  let title := title_el.map getTextStrip
  match selectOne (matchesTagId "div" "mw-content-text") doc with
  | none => (title, html)
  | some content =>
      let content := selectors_to_remove.foldl (fun c p => removeAll p c) content
      let content := removeAll (matchesTagClass "sup" "reference") content
      (title, serializeNode content)

/-- Embeds `_html_to_markdown`: markdownify (`md`, external, passed as `mdFn`)
followed by newline collapsing and `strip()`. -/
def html_to_markdown (mdFn : String → String) (html : String) : String :=
  String.mk (markdown_postprocess (mdFn html).data)

/-- Embeds `_html_to_text`: parse (external, passed as `parse`), join all text
nodes with newlines, then collapse, per-line `rstrip`, and `strip()`. -/
def html_to_text (parse : String → Node) (html : String) : String :=
  String.mk (text_postprocess (getTextLF (parse html)).data)

/-! ### `GET /article_content` -/

/-- The format query parameter (`Literal["markdown", "text"]`). -/
inductive ContentFormat where
  | markdown
  | text
deriving DecidableEq, Repr

/-- Response body of a successful `GET /article_content`. -/
structure ContentResp where
  title : Option String
  url : String
  format : ContentFormat
  content : String
deriving DecidableEq, Repr

/-- Outcome of `client.get(url)` (httpx, external): either a transport
error carrying the exception's message, or a response with status code,
body text and final post-redirect URL. -/
inductive FetchResult where
  | transportError (msg : String)
  | response (status : Nat) (text : String) (url : String)
deriving DecidableEq, Repr

/-- httpx `Response.is_success`: 2xx status. -/
def is_success (status : Nat) : Bool :=
  200 ≤ status && status < 300

/-- Endpoint `GET /article_content`: `fr` is the outcome of the upstream fetch,
`renderStatusError status url` the message of the `HTTPStatusError` that
`raise_for_status()` raises on a non-success status (httpx-formatted,
hence a parameter).  Any `httpx.HTTPError` becomes a 502 whose detail
wraps the cause; otherwise extraction plus the selected conversion run
on the body. -/
def article_content (parse : String → Node) (mdFn : String → String)
    (renderStatusError : Nat → String → String)
    (fr : FetchResult) (format : ContentFormat) :
    Except HTTPException ContentResp :=
  match fr with
  | .transportError msg =>
      .error ⟨502, "failed to fetch url: " ++ msg⟩
  | .response status text url =>
      if is_success status then
        let ex := extract_wikipedia_main_html (parse text) text
        let content :=
          match format with
          | .markdown => html_to_markdown mdFn ex.2
          | .text => html_to_text parse ex.2
        .ok ⟨ex.1, url, format, content⟩
      else
        .error ⟨502, "failed to fetch url: " ++ renderStatusError status url⟩

/-! ### Concrete fixtures

Small concrete summaries, streams and states used to evaluate the
operations at explicit inputs. -/

/-- A well-formed standard summary (page 7). -/
def sumStd1 : Summary := ⟨some "standard", some 7, some "T1", some "u1", some "E1", none⟩

/-- A well-formed standard summary (page 8). -/
def sumStd2 : Summary := ⟨some "standard", some 8, some "T2", some "u2", none, some "th"⟩

/-- A disambiguation summary: rejected by the type filter. -/
def sumDisambig : Summary := ⟨some "disambiguation", some 9, some "T3", some "u3", none, none⟩

/-- A summary with a present but zero pageid. -/
def sumZeroId : Summary := ⟨some "standard", some 0, some "T", some "u", none, none⟩

/-- Upstream stream that always returns `sumStd1`. -/
def streamStd1 : Nat → Summary := fun _ => sumStd1

/-- Upstream stream that always returns `sumStd2`. -/
def streamStd2 : Nat → Summary := fun _ => sumStd2

/-- Upstream stream that always returns a disambiguation page. -/
def streamDisambig : Nat → Summary := fun _ => sumDisambig

/-- Store state after serving `sumStd1` to "alice" on the empty store. -/
def dbAfter1 : DB := (next_article streamStd1 DB.empty "alice").1

/-- Store state after additionally serving `sumStd2` to "alice". -/
def dbAfter2 : DB := (next_article streamStd2 dbAfter1 "alice").1

/-- Store state after a fully rejected `next_article` call for "dave" on
the empty store: the user row exists, nothing else. -/
def dbDave : DB := ⟨[⟨1, "dave"⟩], [], [], 2, 1⟩

/-- The payload served for `sumStd1` on the empty store. -/
def payload1 : ArticlePayload := ⟨1, "T1", "u1", some "E1", none⟩

/-- The payload served for `sumStd2` right after. -/
def payload2 : ArticlePayload := ⟨2, "T2", "u2", none, some "th"⟩

/-- A degenerate parser for concrete runs: the document is one text
node. -/
def trivialParse : String → Node := fun s => Node.text s

/-- A degenerate Markdown converter for concrete runs. -/
def identityMd : String → String := fun s => s

/-- A fixed status-error message renderer for concrete runs. -/
def renderFixed : Nat → String → String := fun _ _ => "status error"

/-- A document with a heading but no `div#mw-content-text`. -/
def docNoContent : Node :=
  Node.elem "html" none [] none
    [Node.elem "h1" (some "firstHeading") [] none [Node.text " Hello "]]

/-! ### Basic store lemmas -/

lemma insertUserIgnore_articles (db : DB) (u : String) :
    (insertUserIgnore db u).articles = db.articles := by
  unfold insertUserIgnore; split <;> rfl

lemma insertUserIgnore_user_articles (db : DB) (u : String) :
    (insertUserIgnore db u).user_articles = db.user_articles := by
  unfold insertUserIgnore; split <;> rfl

lemma insertUserIgnore_users_extend (db : DB) (u : String) :
    ∃ extra, (insertUserIgnore db u).users = db.users ++ extra := by
  unfold insertUserIgnore; split
  · exact ⟨[], by simp⟩
  · exact ⟨_, rfl⟩

lemma findUser_insertUserIgnore (db : DB) (u : String) :
    ∃ row, findUser (insertUserIgnore db u) u = some row := by
  by_cases h : db.users.any (fun x => x.handle == u) = true
  · obtain ⟨x, hx, hpx⟩ := List.any_eq_true.1 h
    have hs : (findUser (insertUserIgnore db u) u).isSome := by
      unfold insertUserIgnore findUser
      simp only [h, if_true]
      exact List.find?_isSome.2 ⟨x, hx, hpx⟩
    exact Option.isSome_iff_exists.1 hs
  · have hb : db.users.any (fun x => x.handle == u) = false :=
      Bool.not_eq_true _ ▸ (by simpa using h)
    have hnone : db.users.find? (fun x => x.handle == u) = none := by
      rw [List.find?_eq_none]
      intro x hx hpx
      exact h (List.any_eq_true.2 ⟨x, hx, hpx⟩)
    refine ⟨⟨db.next_user_id, u⟩, ?_⟩
    unfold insertUserIgnore findUser
    simp only [hb, Bool.false_eq_true, if_false]
    rw [List.find?_append, hnone]
    simp

lemma get_or_create_user_ok (db : DB) (u : String) :
    ∃ uid, get_or_create_user db u = (insertUserIgnore db u, .ok uid) := by
  obtain ⟨row, hrow⟩ := findUser_insertUserIgnore db u
  refine ⟨row.id, ?_⟩
  unfold get_or_create_user
  dsimp only
  rw [hrow]

lemma get_or_create_user_of_found (db : DB) (u : String) (row : UserRow)
    (h : findUser db u = some row) :
    get_or_create_user db u = (db, .ok row.id) := by
  have h' : db.users.find? (fun x => x.handle == u) = some row := h
  have hp := List.find?_some h'
  have hany : db.users.any (fun x => x.handle == u) = true :=
    List.any_eq_true.2 ⟨row, List.mem_of_find?_eq_some h', hp⟩
  have hins : insertUserIgnore db u = db := by
    unfold insertUserIgnore; simp [hany]
  unfold get_or_create_user
  dsimp only
  rw [hins, h]

lemma insertArticleIgnore_users (db : DB) (l : String) (pid : Nat) (t u : String) :
    (insertArticleIgnore db l pid t u).users = db.users := by
  unfold insertArticleIgnore; split <;> rfl

lemma insertArticleIgnore_user_articles (db : DB) (l : String) (pid : Nat) (t u : String) :
    (insertArticleIgnore db l pid t u).user_articles = db.user_articles := by
  unfold insertArticleIgnore; split <;> rfl

lemma insertArticleIgnore_articles_extend (db : DB) (l : String) (pid : Nat) (t u : String) :
    ∃ extra, (insertArticleIgnore db l pid t u).articles = db.articles ++ extra := by
  unfold insertArticleIgnore; split
  · exact ⟨[], by simp⟩
  · exact ⟨_, rfl⟩

lemma insertArticleIgnore_of_found (db : DB) (l : String) (pid : Nat) (t u : String)
    (row : ArticleRow) (h : findArticle db l pid = some row) :
    insertArticleIgnore db l pid t u = db := by
  have h' : db.articles.find? (fun a => a.lang == l && a.page_id == pid) = some row := h
  have hp := List.find?_some h'
  have hany : db.articles.any (fun a => a.lang == l && a.page_id == pid) = true :=
    List.any_eq_true.2 ⟨row, List.mem_of_find?_eq_some h', hp⟩
  unfold insertArticleIgnore; simp [hany]

lemma findArticle_insert_fresh (db : DB) (l : String) (pid : Nat) (t u : String)
    (h : findArticle db l pid = none) :
    findArticle (insertArticleIgnore db l pid t u) l pid =
      some ⟨db.next_article_id, l, pid, t, u⟩ := by
  have hb : db.articles.any (fun a => a.lang == l && a.page_id == pid) = false := by
    rw [List.any_eq_false]
    intro a ha
    exact (List.find?_eq_none.1 h) a ha
  unfold insertArticleIgnore findArticle
  simp only [hb, Bool.false_eq_true, if_false]
  rw [List.find?_append]
  unfold findArticle at h
  rw [h]
  simp

lemma findArticle_insert_isSome (db : DB) (l : String) (pid : Nat) (t u : String) :
    ∃ row, findArticle (insertArticleIgnore db l pid t u) l pid = some row := by
  by_cases h : findArticle db l pid = none
  · exact ⟨_, findArticle_insert_fresh db l pid t u h⟩
  · obtain ⟨row, hrow⟩ := Option.ne_none_iff_exists'.1 h
    rw [insertArticleIgnore_of_found db l pid t u row hrow]
    exact ⟨row, hrow⟩

/-! ### Claim C4: `ensure_article` is idempotent -/

/-- C4: the article upsert is idempotent.  A second `ensure_article` with
the same (lang, upstream page id) but different title and url returns the
very same store state and article id as the first (so the first call's
title/url survive); and when the pair was fresh, the row the two calls
leave behind is the first call's row, title and url included. -/
theorem ensure_article_idempotent (db : DB) (lang : String) (pid : Nat)
    (t1 u1 t2 u2 : String) :
    ensure_article (ensure_article db lang pid t1 u1).1 lang pid t2 u2 =
      ensure_article db lang pid t1 u1 ∧
    (findArticle db lang pid = none →
      findArticle (ensure_article (ensure_article db lang pid t1 u1).1 lang pid t2 u2).1
          lang pid = some ⟨db.next_article_id, lang, pid, t1, u1⟩) := by
  obtain ⟨row, hrow⟩ := findArticle_insert_isSome db lang pid t1 u1
  have hno : insertArticleIgnore (insertArticleIgnore db lang pid t1 u1) lang pid t2 u2 =
      insertArticleIgnore db lang pid t1 u1 :=
    insertArticleIgnore_of_found _ _ _ _ _ row hrow
  constructor
  · show (insertArticleIgnore (insertArticleIgnore db lang pid t1 u1) lang pid t2 u2,
        (findArticle (insertArticleIgnore (insertArticleIgnore db lang pid t1 u1) lang pid t2 u2)
          lang pid).map (fun a => a.id)) =
      (insertArticleIgnore db lang pid t1 u1,
        (findArticle (insertArticleIgnore db lang pid t1 u1) lang pid).map (fun a => a.id))
    rw [hno]
  · intro hfresh
    show findArticle (insertArticleIgnore (insertArticleIgnore db lang pid t1 u1) lang pid t2 u2)
        lang pid = _
    rw [hno]
    exact findArticle_insert_fresh db lang pid t1 u1 hfresh

/-! ### Claim C5: non-standard summaries are rejected without a store write -/

/-- C5: a summary whose type marker is present and differs from
"standard" is rejected: the attempt leaves the store untouched (so no
article row is created) and the selector loop moves on to the next
attempt; and the type filter passes exactly the summaries whose type
marker is absent or equal to "standard". -/
theorem nonstandard_type_rejected (uid : Nat) (js : Summary) (db : DB)
    (stream : Nat → Summary) (i fuel : Nat) (d : DB) (t : String)
    (ht : js.type = some t) (hne : t ≠ "standard") (hs : stream i = js) :
    attempt uid js db = (db, .rejected) ∧
    next_article_loop stream uid i (fuel + 1) d = next_article_loop stream uid (i + 1) fuel d ∧
    ∀ js2 : Summary,
      (type_rejected js2 = false ↔ (js2.type = none ∨ js2.type = some "standard")) := by
  have hrej : type_rejected js = true := by
    unfold type_rejected
    rw [ht]
    simp [hne]
  refine ⟨?_, ?_, ?_⟩
  · unfold attempt
    rw [hrej]
    rfl
  · show (match attempt uid (stream i) d with
      | (db1, .served p) => (db1, Except.ok p)
      | (db1, .rejected) => next_article_loop stream uid (i + 1) fuel db1) = _
    rw [hs]
    have : attempt uid js d = (d, .rejected) := by
      unfold attempt; rw [hrej]; rfl
    rw [this]
  · intro js2
    unfold type_rejected
    cases h2 : js2.type with
    | none => simp
    | some t2 =>
        by_cases ht2 : t2 = "standard" <;> simp [ht2]

/-! ### Claim C9: the required-field check uses truthiness -/

/-- C9: the required-field check of the selector is a truthiness check,
not a presence check: a summary that passed the type filter but carries
`pageid == 0`, an empty title, or an empty desktop URL fails the field
check and is rejected exactly like a summary missing the field. -/
theorem falsy_fields_rejected (uid : Nat) (js : Summary) (db : DB)
    (htype : type_rejected js = false)
    (h : js.pageid = some 0 ∨ js.title = some "" ∨ js.desktop_page = some "") :
    fields_ok js = false ∧ attempt uid js db = (db, .rejected) := by
  have hf : fields_ok js = false := by
    unfold fields_ok
    rcases h with h | h | h
    · rw [h]; simp [truthyNat]
    · rw [h]; simp [truthyStr]
    · rw [h]; simp [truthyStr]
  refine ⟨hf, ?_⟩
  unfold attempt
  rw [htype, hf]
  rfl

/-! ### Claim C6: `react` always acknowledges; a missing row is a no-op -/

lemma applyReaction_no_match (uid : Nat) (inp : ReactIn) (l : List UserArticleRow)
    (h : l.any (fun r => r.user_id == uid && r.article_id == inp.article_id) = false) :
    l.map (applyReaction uid inp) = l := by
  induction l with
  | nil => rfl
  | cons r rest ih =>
      rw [List.any_cons, Bool.or_eq_false_iff] at h
      rw [List.map_cons, ih h.2]
      unfold applyReaction
      rw [h.1]
      rfl

/-- C6: for every user handle, article id and reaction, `react` answers
`{ok: true}`; the update rewrites exactly the exposure rows matching
(user, article), setting `reacted` and the reaction value; and when no
such row exists the exposure table is left byte-for-byte unchanged (a
documented no-op, still acknowledged with success). -/
theorem react_always_ok (db : DB) (u : String) (inp : ReactIn) :
    ∃ uid,
      get_or_create_user db u = (insertUserIgnore db u, .ok uid) ∧
      react db u inp =
        ({ insertUserIgnore db u with
            user_articles := db.user_articles.map (applyReaction uid inp) }, .ok ⟨true⟩) ∧
      (hasExposure db uid inp.article_id = false →
        (react db u inp).1.user_articles = db.user_articles) := by
  obtain ⟨uid, huid⟩ := get_or_create_user_ok db u
  have hua : (insertUserIgnore db u).user_articles = db.user_articles :=
    insertUserIgnore_user_articles db u
  have hreact : react db u inp =
      ({ insertUserIgnore db u with
          user_articles := db.user_articles.map (applyReaction uid inp) }, .ok ⟨true⟩) := by
    unfold react
    rw [huid]
    dsimp only
    rw [hua]
  refine ⟨uid, huid, hreact, ?_⟩
  intro hnone
  rw [hreact]
  exact applyReaction_no_match uid inp db.user_articles hnone

/-! ### Claim C8: extraction falls back to the verbatim input -/

lemma extract_title_eq (doc : Node) (html : String) :
    (extract_wikipedia_main_html doc html).1 =
      ((selectOne (matchesId "firstHeading") doc).orElse
        (fun _ => selectOne (matchesTag "title") doc)).map getTextStrip := by
  unfold extract_wikipedia_main_html
  cases h : selectOne (matchesTagId "div" "mw-content-text") doc <;> simp [h]

/-- C8: when `div#mw-content-text` cannot be located, extraction returns
the whole input HTML character-for-character as the content; the heading
is taken from `#firstHeading`, falling back to the `title` element, and
is absent when neither exists. -/
theorem extract_fallback_verbatim (doc : Node) (html : String)
    (hnone : selectOne (matchesTagId "div" "mw-content-text") doc = none) :
    extract_wikipedia_main_html doc html =
      (((selectOne (matchesId "firstHeading") doc).orElse
          (fun _ => selectOne (matchesTag "title") doc)).map getTextStrip, html) ∧
    (∀ el, selectOne (matchesId "firstHeading") doc = some el →
      (extract_wikipedia_main_html doc html).1 = some (getTextStrip el)) ∧
    (selectOne (matchesId "firstHeading") doc = none →
      (∀ el, selectOne (matchesTag "title") doc = some el →
        (extract_wikipedia_main_html doc html).1 = some (getTextStrip el)) ∧
      (selectOne (matchesTag "title") doc = none →
        (extract_wikipedia_main_html doc html).1 = none)) := by
  refine ⟨?_, ?_, ?_⟩
  · unfold extract_wikipedia_main_html
    rw [hnone]
  · intro el hel
    rw [extract_title_eq, hel]
    rfl
  · intro hfh
    refine ⟨?_, ?_⟩
    · intro el hel
      rw [extract_title_eq, hfh, hel]
      rfl
    · intro htl
      rw [extract_title_eq, hfh, htl]
      rfl

/-! ### Claim C7: `article_content` error and success shapes -/

/-- C7: the content-fetch endpoint turns any transport error and any
non-success HTTP status into a 502 whose detail wraps the underlying
cause message, returning no conversion result; on a success status it
returns the extracted title, the final post-redirect URL, the requested
format and the converted content. -/
theorem article_content_gateway (parse : String → Node) (mdFn : String → String)
    (renderStatusError : Nat → String → String) (fr : FetchResult)
    (format : ContentFormat) :
    (∀ msg, fr = .transportError msg →
      article_content parse mdFn renderStatusError fr format =
        .error ⟨502, "failed to fetch url: " ++ msg⟩) ∧
    (∀ status text url, fr = .response status text url → is_success status = false →
      article_content parse mdFn renderStatusError fr format =
        .error ⟨502, "failed to fetch url: " ++ renderStatusError status url⟩) ∧
    (∀ status text url, fr = .response status text url → is_success status = true →
      article_content parse mdFn renderStatusError fr format =
        .ok ⟨(extract_wikipedia_main_html (parse text) text).1, url, format,
          match format with
          | .markdown => html_to_markdown mdFn (extract_wikipedia_main_html (parse text) text).2
          | .text => html_to_text parse (extract_wikipedia_main_html (parse text) text).2⟩) := by
  refine ⟨?_, ?_, ?_⟩
  · rintro msg rfl
    rfl
  · rintro status text url rfl hbad
    unfold article_content
    dsimp only
    rw [hbad]
    rfl
  · rintro status text url rfl hgood
    unfold article_content
    dsimp only
    rw [hgood]
    rfl

/-! ### Claim C3: newline collapsing -/

lemma not_decomp_of_short (l : List Char) (h : l.length < 3) :
    ¬ ∃ l₁ l₂, l = l₁ ++ '\n' :: '\n' :: '\n' :: l₂ := by
  rintro ⟨l₁, l₂, rfl⟩
  simp [List.length_append] at h
  omega

lemma containsTriple_iff : (l : List Char) →
    (containsTriple l = true ↔ ∃ l₁ l₂, l = l₁ ++ '\n' :: '\n' :: '\n' :: l₂)
  | [] => by
      constructor
      · intro h; simp [containsTriple] at h
      · intro h; exact absurd h (not_decomp_of_short [] (by simp))
  | [a] => by
      constructor
      · intro h; simp [containsTriple] at h
      · intro h; exact absurd h (not_decomp_of_short [a] (by simp))
  | [a, b] => by
      constructor
      · intro h; simp [containsTriple] at h
      · intro h; exact absurd h (not_decomp_of_short [a, b] (by simp))
  | a :: b :: c :: rest => by
      rw [show containsTriple (a :: b :: c :: rest) =
          ((a == '\n' && b == '\n' && c == '\n') || containsTriple (b :: c :: rest)) from rfl]
      constructor
      · intro h
        have h' : (a == '\n' && b == '\n' && c == '\n') = true ∨
            containsTriple (b :: c :: rest) = true := by simpa using h
        rcases h' with h1 | h2
        · obtain ⟨⟨ha, hb⟩, hc⟩ :
              ((a == '\n') = true ∧ (b == '\n') = true) ∧ (c == '\n') = true := by
            rw [Bool.and_eq_true, Bool.and_eq_true] at h1
            exact h1
          refine ⟨[], rest, ?_⟩
          rw [eq_of_beq ha, eq_of_beq hb, eq_of_beq hc]
          rfl
        · obtain ⟨l₁, l₂, he⟩ := (containsTriple_iff (b :: c :: rest)).1 h2
          exact ⟨a :: l₁, l₂, by rw [List.cons_append, ← he]⟩
      · rintro ⟨l₁, l₂, he⟩
        cases l₁ with
        | nil =>
            simp only [List.nil_append] at he
            obtain ⟨rfl, rfl, rfl, rfl⟩ : a = '\n' ∧ b = '\n' ∧ c = '\n' ∧ rest = l₂ := by
              simpa using he
            simp
        | cons x xs =>
            simp only [List.cons_append] at he
            obtain ⟨rfl, htail⟩ : a = x ∧ b :: c :: rest = xs ++ '\n' :: '\n' :: '\n' :: l₂ := by
              simpa using he
            have : containsTriple (b :: c :: rest) = true :=
              (containsTriple_iff (b :: c :: rest)).2 ⟨xs, l₂, htail⟩
            simp [this]

lemma containsTriple_append_left (l₁ l₂ : List Char) (h : containsTriple l₂ = true) :
    containsTriple (l₁ ++ l₂) = true := by
  obtain ⟨m₁, m₂, rfl⟩ := (containsTriple_iff l₂).1 h
  exact (containsTriple_iff _).2 ⟨l₁ ++ m₁, m₂, by rw [List.append_assoc]⟩

lemma containsTriple_dropWhile (p : Char → Bool) (l : List Char)
    (h : containsTriple l = false) : containsTriple (l.dropWhile p) = false := by
  by_contra hx
  rw [Bool.not_eq_false] at hx
  have htot : containsTriple (l.takeWhile p ++ l.dropWhile p) = true :=
    containsTriple_append_left _ _ hx
  rw [List.takeWhile_append_dropWhile, h] at htot
  cases htot

lemma containsTriple_reverse (l : List Char) :
    containsTriple l.reverse = containsTriple l := by
  have key : ∀ m : List Char, containsTriple m = true → containsTriple m.reverse = true := by
    intro m hm
    obtain ⟨l₁, l₂, rfl⟩ := (containsTriple_iff m).1 hm
    apply (containsTriple_iff _).2
    refine ⟨l₂.reverse, l₁.reverse, ?_⟩
    simp
  cases hl : containsTriple l with
  | false =>
      by_contra hx
      rw [Bool.not_eq_false] at hx
      have := key _ hx
      rw [List.reverse_reverse, hl] at this
      cases this
  | true => exact key l hl

lemma containsTriple_pyStrip (l : List Char) (h : containsTriple l = false) :
    containsTriple (pyStrip l) = false := by
  unfold pyStrip
  rw [containsTriple_reverse]
  refine containsTriple_dropWhile _ _ ?_
  rw [containsTriple_reverse]
  exact containsTriple_dropWhile _ _ h

lemma containsTriple_cons_ne (c : Char) (hc : c ≠ '\n') (X : List Char) :
    containsTriple (c :: X) = containsTriple X := by
  match X with
  | [] => rfl
  | [x] => rfl
  | x :: y :: rest =>
      show ((c == '\n' && x == '\n' && y == '\n') || containsTriple (x :: y :: rest)) =
        containsTriple (x :: y :: rest)
      rw [beq_eq_false_iff_ne.2 hc]
      simp

lemma containsTriple_one_nl (c : Char) (hc : c ≠ '\n') (X : List Char)
    (hX : containsTriple X = false) : containsTriple ('\n' :: c :: X) = false := by
  match X with
  | [] => rfl
  | x :: rest =>
      show (('\n' == '\n' && c == '\n' && x == '\n') || containsTriple (c :: x :: rest)) = false
      rw [containsTriple_cons_ne c hc, hX, beq_eq_false_iff_ne.2 hc]
      simp

lemma triple_junction (k : Nat) (hk : k ≤ 2) (c : Char) (hc : c ≠ '\n')
    (X : List Char) (hX : containsTriple X = false) :
    containsTriple (List.replicate k '\n' ++ c :: X) = false := by
  interval_cases k
  · show containsTriple (c :: X) = false
    rw [containsTriple_cons_ne c hc]
    exact hX
  · show containsTriple ('\n' :: c :: X) = false
    exact containsTriple_one_nl c hc X hX
  · show containsTriple ('\n' :: '\n' :: c :: X) = false
    show (('\n' == '\n' && '\n' == '\n' && c == '\n') || containsTriple ('\n' :: c :: X)) = false
    rw [containsTriple_one_nl c hc X hX, beq_eq_false_iff_ne.2 hc]
    simp

lemma collapseAux_nl_of_ge (n : Nat) (rest : List Char) (hn : 2 ≤ n) :
    collapseAux n ('\n' :: rest) = collapseAux n rest := by
  conv_lhs => rw [collapseAux]
  simp [hn]

lemma collapseAux_nl_of_lt (n : Nat) (rest : List Char) (hn : ¬ 2 ≤ n) :
    collapseAux n ('\n' :: rest) = '\n' :: collapseAux (n + 1) rest := by
  conv_lhs => rw [collapseAux]
  simp [hn]

lemma collapseAux_cons_ne (n : Nat) (c : Char) (rest : List Char) (hc : ¬ c = '\n') :
    collapseAux n (c :: rest) = c :: collapseAux 0 rest := by
  conv_lhs => rw [collapseAux]
  simp [hc]

lemma collapseAux_no_triple : (l : List Char) → (n : Nat) →
    containsTriple (List.replicate (min n 2) '\n' ++ collapseAux n l) = false
  | [], n => by
      rw [show collapseAux n [] = [] from rfl, List.append_nil]
      match n with
      | 0 => decide
      | 1 => decide
      | n + 2 =>
          rw [show min (n + 2) 2 = 2 by omega]
          decide
  | c :: rest, n => by
      by_cases hc : c = '\n'
      · subst hc
        by_cases hn : 2 ≤ n
        · rw [collapseAux_nl_of_ge n rest hn]
          exact collapseAux_no_triple rest n
        · rw [collapseAux_nl_of_lt n rest hn]
          have hshape :
              List.replicate (min n 2) '\n' ++ '\n' :: collapseAux (n + 1) rest =
              List.replicate (min (n + 1) 2) '\n' ++ collapseAux (n + 1) rest := by
            rw [show min n 2 = n by omega, show min (n + 1) 2 = n + 1 by omega,
              List.replicate_succ' (n := n) '\n', List.append_assoc]
            rfl
          rw [hshape]
          exact collapseAux_no_triple rest (n + 1)
      · rw [collapseAux_cons_ne n c rest hc]
        have htail : containsTriple (collapseAux 0 rest) = false := by
          have := collapseAux_no_triple rest 0
          simpa using this
        exact triple_junction (min n 2) (by omega) c hc _ htail

lemma collapse_no_triple (s : List Char) :
    containsTriple (collapseNewlines s) = false := by
  have := collapseAux_no_triple s 0
  simpa [collapseNewlines] using this

/-- C3 counterexample: the converted plain-text output
`"a \n \n \nb"` (single newlines separated by whitespace-only lines) is
left alone by the collapse step, but the per-line trailing-whitespace
strip then merges the three whitespace-only lines, so the final result of
the plain-text conversion is `"a\n\n\nb"`: a run of three consecutive
newlines survives in the final result, contradicting the claim. -/
theorem text_collapse_counterexample :
    text_postprocess ("a \n \n \nb".data) = ("a\n\n\nb".data) ∧
    containsTriple (text_postprocess ("a \n \n \nb".data)) = true := by
  exact ⟨by decide, by decide⟩

/-- C3 amended: the Markdown conversion's final result never contains 3
or more consecutive newlines, and in the plain-text conversion the
collapse step itself leaves no such run (the run observed in the
counterexample is created afterwards by the per-line trailing-whitespace
strip merging whitespace-only lines). -/
theorem conversion_collapse_guarantee (s : List Char) :
    containsTriple (markdown_postprocess s) = false ∧
    containsTriple (collapseNewlines s) = false := by
  constructor
  · show containsTriple (pyStrip (collapseNewlines s)) = false
    exact containsTriple_pyStrip _ (collapse_no_triple s)
  · exact collapse_no_triple s

/-! ### Selector-loop lemmas -/

lemma insertExposure_users (db : DB) (uid aid : Nat) :
    (insertExposure db uid aid).users = db.users := rfl

lemma insertExposure_articles (db : DB) (uid aid : Nat) :
    (insertExposure db uid aid).articles = db.articles := rfl

lemma hasExposure_congr (db db' : DB) (h : db'.user_articles = db.user_articles)
    (uid aid : Nat) : hasExposure db' uid aid = hasExposure db uid aid := by
  unfold hasExposure; rw [h]

lemma findUser_congr (db db' : DB) (h : db'.users = db.users) (u : String) :
    findUser db' u = findUser db u := by
  unfold findUser; rw [h]

lemma attempt_users (uid : Nat) (js : Summary) (db : DB) :
    (attempt uid js db).1.users = db.users := by
  unfold attempt
  split
  · rfl
  · split
    · rfl
    · split
      · dsimp only
        split
        · exact insertArticleIgnore_users db LANG _ _ _
        · split
          · exact insertArticleIgnore_users db LANG _ _ _
          · exact insertArticleIgnore_users db LANG _ _ _
      · rfl

lemma attempt_articles_extend (uid : Nat) (js : Summary) (db : DB) :
    ∃ extra, (attempt uid js db).1.articles = db.articles ++ extra := by
  unfold attempt
  split
  · exact ⟨[], by simp⟩
  · split
    · exact ⟨[], by simp⟩
    · split
      · dsimp only
        split
        · exact insertArticleIgnore_articles_extend db LANG _ _ _
        · split
          · exact insertArticleIgnore_articles_extend db LANG _ _ _
          · exact insertArticleIgnore_articles_extend db LANG _ _ _
      · exact ⟨[], by simp⟩

lemma attempt_rejected_state (uid : Nat) (js : Summary) (db db' : DB)
    (h : attempt uid js db = (db', .rejected)) :
    db'.user_articles = db.user_articles := by
  unfold attempt at h
  split at h
  · injection h with h1 h2; subst h1; rfl
  · split at h
    · injection h with h1 h2; subst h1; rfl
    · split at h
      · dsimp only at h
        split at h
        · injection h with h1 h2; subst h1
          exact insertArticleIgnore_user_articles db LANG _ _ _
        · split at h
          · injection h with h1 h2; subst h1
            exact insertArticleIgnore_user_articles db LANG _ _ _
          · simp at h
      · injection h with h1 h2; subst h1; rfl

lemma attempt_served_state (uid : Nat) (js : Summary) (db db' : DB) (p : ArticlePayload)
    (h : attempt uid js db = (db', .served p)) :
    hasExposure db uid p.article_id = false ∧
    db'.user_articles = db.user_articles ++ [⟨uid, p.article_id, false, none⟩] := by
  unfold attempt at h
  split at h
  · simp at h
  · split at h
    · simp at h
    · split at h
      · dsimp only at h
        split at h
        · simp at h
        · split at h
          · simp at h
          next hexp =>
            rename_i pageid title url hpg hti hur xx aid heq
            injection h with h1 h2
            subst h1
            injection h2 with h3
            subst h3
            have hins : (ensure_article db LANG pageid title url).1.user_articles
                = db.user_articles := insertArticleIgnore_user_articles db LANG pageid title url
            constructor
            · show hasExposure db uid aid = false
              have hexp' : hasExposure (ensure_article db LANG pageid title url).1 uid aid
                  = false := by simpa using hexp
              rw [← hasExposure_congr db _ hins uid aid]
              exact hexp'
            · show (ensure_article db LANG pageid title url).1.user_articles ++
                  [⟨uid, aid, false, none⟩] = _
              rw [hins]
      · simp at h

lemma attempt_user_articles_cases (uid : Nat) (js : Summary) (db : DB) :
    (attempt uid js db).1.user_articles = db.user_articles ∨
    ∃ row, (attempt uid js db).1.user_articles = db.user_articles ++ [row] := by
  rcases h : attempt uid js db with ⟨db', r⟩
  cases r with
  | rejected =>
      left
      exact attempt_rejected_state uid js db db' h
  | served p =>
      right
      obtain ⟨-, h2⟩ := attempt_served_state uid js db db' p h
      exact ⟨_, h2⟩

lemma attempt_hasExposure_mono (uid2 : Nat) (js : Summary) (db : DB) (uid aid : Nat)
    (h : hasExposure db uid aid = true) :
    hasExposure (attempt uid2 js db).1 uid aid = true := by
  rcases attempt_user_articles_cases uid2 js db with hc | ⟨row, hc⟩ <;>
    unfold hasExposure at * <;> rw [hc] <;> simp_all

lemma next_article_loop_zero (s : Nat → Summary) (uid i : Nat) (db : DB) :
    next_article_loop s uid i 0 db = (db, .error noUnseenError) := rfl

lemma next_article_loop_succ (s : Nat → Summary) (uid i fuel : Nat) (db : DB) :
    next_article_loop s uid i (fuel + 1) db =
      match attempt uid (s i) db with
      | (db1, .served p) => (db1, .ok p)
      | (db1, .rejected) => next_article_loop s uid (i + 1) fuel db1 := rfl

lemma allRejected_zero (s : Nat → Summary) (uid i : Nat) (db : DB) :
    allRejected s uid i 0 db = true := rfl

lemma allRejected_succ (s : Nat → Summary) (uid i fuel : Nat) (db : DB) :
    allRejected s uid i (fuel + 1) db =
      match attempt uid (s i) db with
      | (db1, .rejected) => allRejected s uid (i + 1) fuel db1
      | (_, .served _) => false := rfl

lemma loop_users (s : Nat → Summary) (uid : Nat) : ∀ (fuel i : Nat) (db : DB),
    (next_article_loop s uid i fuel db).1.users = db.users := by
  intro fuel
  induction fuel with
  | zero => intro i db; rfl
  | succ n ih =>
      intro i db
      rw [next_article_loop_succ]
      rcases h : attempt uid (s i) db with ⟨db1, r⟩
      have husers : db1.users = db.users := by
        have := attempt_users uid (s i) db
        rw [h] at this
        exact this
      cases r with
      | served p => exact husers
      | rejected =>
          dsimp only
          rw [ih (i + 1) db1]
          exact husers

lemma loop_error_state (s : Nat → Summary) (uid : Nat) :
    ∀ (fuel i : Nat) (db db' : DB) (e : HTTPException),
    next_article_loop s uid i fuel db = (db', .error e) →
    db'.user_articles = db.user_articles ∧ e = noUnseenError ∧
    allRejected s uid i fuel db = true := by
  intro fuel
  induction fuel with
  | zero =>
      intro i db db' e h
      rw [next_article_loop_zero] at h
      injection h with h1 h2
      subst h1
      injection h2 with h3
      exact ⟨rfl, h3.symm, rfl⟩
  | succ n ih =>
      intro i db db' e h
      rw [next_article_loop_succ] at h
      rcases ha : attempt uid (s i) db with ⟨db1, r⟩
      rw [ha] at h
      cases r with
      | served p => simp at h
      | rejected =>
          dsimp only at h
          obtain ⟨hua, he, hrej⟩ := ih (i + 1) db1 db' e h
          have hua1 := attempt_rejected_state uid (s i) db db1 ha
          refine ⟨hua.trans hua1, he, ?_⟩
          rw [allRejected_succ, ha]
          exact hrej

lemma loop_error_of_allRejected (s : Nat → Summary) (uid : Nat) :
    ∀ (fuel i : Nat) (db : DB), allRejected s uid i fuel db = true →
    ∃ db', next_article_loop s uid i fuel db = (db', .error noUnseenError) := by
  intro fuel
  induction fuel with
  | zero => intro i db _; exact ⟨db, rfl⟩
  | succ n ih =>
      intro i db h
      rw [allRejected_succ] at h
      rw [next_article_loop_succ]
      rcases ha : attempt uid (s i) db with ⟨db1, r⟩
      rw [ha] at h
      cases r with
      | served p => simp at h
      | rejected => exact ih (i + 1) db1 h

lemma loop_ok_state (s : Nat → Summary) (uid : Nat) :
    ∀ (fuel i : Nat) (db db' : DB) (p : ArticlePayload),
    next_article_loop s uid i fuel db = (db', .ok p) →
    hasExposure db uid p.article_id = false ∧
    db'.user_articles = db.user_articles ++ [⟨uid, p.article_id, false, none⟩] := by
  intro fuel
  induction fuel with
  | zero =>
      intro i db db' p h
      rw [next_article_loop_zero] at h
      simp at h
  | succ n ih =>
      intro i db db' p h
      rw [next_article_loop_succ] at h
      rcases ha : attempt uid (s i) db with ⟨db1, r⟩
      rw [ha] at h
      cases r with
      | served q =>
          dsimp only at h
          injection h with h1 h2
          subst h1
          injection h2 with h3
          subst h3
          exact attempt_served_state uid (s i) db _ _ ha
      | rejected =>
          dsimp only at h
          obtain ⟨hexp, hua⟩ := ih (i + 1) db1 db' p h
          have hua1 := attempt_rejected_state uid (s i) db db1 ha
          constructor
          · rw [← hasExposure_congr db db1 hua1 uid p.article_id]
            exact hexp
          · rw [hua, hua1]

lemma loop_articles_extend (s : Nat → Summary) (uid : Nat) :
    ∀ (fuel i : Nat) (db : DB),
    ∃ extra, (next_article_loop s uid i fuel db).1.articles = db.articles ++ extra := by
  intro fuel
  induction fuel with
  | zero => intro i db; exact ⟨[], by rw [next_article_loop_zero]; simp⟩
  | succ n ih =>
      intro i db
      rw [next_article_loop_succ]
      rcases ha : attempt uid (s i) db with ⟨db1, r⟩
      have hart : ∃ extra, db1.articles = db.articles ++ extra := by
        have := attempt_articles_extend uid (s i) db
        rw [ha] at this
        exact this
      obtain ⟨e1, he1⟩ := hart
      cases r with
      | served p => exact ⟨e1, he1⟩
      | rejected =>
          dsimp only
          obtain ⟨e2, he2⟩ := ih (i + 1) db1
          exact ⟨e1 ++ e2, by rw [he2, he1, List.append_assoc]⟩

lemma loop_congr (s1 s2 : Nat → Summary) (uid : Nat) :
    ∀ (fuel i : Nat) (db : DB),
    (∀ j, i ≤ j → j < i + fuel → s2 j = s1 j) →
    next_article_loop s2 uid i fuel db = next_article_loop s1 uid i fuel db := by
  intro fuel
  induction fuel with
  | zero => intro i db _; rfl
  | succ n ih =>
      intro i db hag
      rw [next_article_loop_succ, next_article_loop_succ,
        hag i (Nat.le_refl i) (by omega)]
      rcases ha : attempt uid (s1 i) db with ⟨db1, r⟩
      cases r with
      | served p => rfl
      | rejected =>
          dsimp only
          exact ih (i + 1) db1 (fun j h1 h2 => hag j (by omega) (by omega))

lemma loop_hasExposure_mono (s : Nat → Summary) (uid2 : Nat) :
    ∀ (fuel i : Nat) (db : DB) (uid aid : Nat),
    hasExposure db uid aid = true →
    hasExposure (next_article_loop s uid2 i fuel db).1 uid aid = true := by
  intro fuel
  induction fuel with
  | zero => intro i db uid aid h; exact h
  | succ n ih =>
      intro i db uid aid h
      rw [next_article_loop_succ]
      rcases ha : attempt uid2 (s i) db with ⟨db1, r⟩
      have hmono : hasExposure db1 uid aid = true := by
        have := attempt_hasExposure_mono uid2 (s i) db uid aid h
        rw [ha] at this
        exact this
      cases r with
      | served p => exact hmono
      | rejected => exact ih (i + 1) db1 uid aid hmono

lemma get_or_create_user_fst (db : DB) (u : String) :
    (get_or_create_user db u).1 = insertUserIgnore db u := by
  unfold get_or_create_user
  dsimp only
  cases findUser (insertUserIgnore db u) u <;> rfl

lemma get_or_create_user_ok_inv (db : DB) (u : String) (dbA : DB) (uid : Nat)
    (h : get_or_create_user db u = (dbA, .ok uid)) :
    dbA = insertUserIgnore db u ∧ ∃ row, findUser dbA u = some row ∧ row.id = uid := by
  unfold get_or_create_user at h
  dsimp only at h
  cases hf : findUser (insertUserIgnore db u) u with
  | none => rw [hf] at h; simp at h
  | some row =>
      rw [hf] at h
      injection h with h1 h2
      injection h2 with h3
      subst h1
      exact ⟨rfl, row, hf, h3⟩

lemma next_article_eq_of_ok_user (s : Nat → Summary) (db : DB) (u : String)
    (dbA : DB) (uid : Nat) (hg : get_or_create_user db u = (dbA, .ok uid)) :
    next_article s db u = next_article_loop s uid 0 12 dbA := by
  unfold next_article
  rw [hg]

lemma react_eq_of_ok_user (db : DB) (u : String) (inp : ReactIn)
    (dbA : DB) (uid : Nat) (hg : get_or_create_user db u = (dbA, .ok uid)) :
    react db u inp =
      ({ dbA with user_articles := dbA.user_articles.map (applyReaction uid inp) },
       .ok ⟨true⟩) := by
  unfold react
  rw [hg]

lemma hasExposure_map_applyReaction (l : List UserArticleRow) (uid2 : Nat)
    (inp : ReactIn) (uid aid : Nat) :
    (l.map (applyReaction uid2 inp)).any (fun r => r.user_id == uid && r.article_id == aid) =
    l.any (fun r => r.user_id == uid && r.article_id == aid) := by
  induction l with
  | nil => rfl
  | cons r rest ih =>
      rw [List.map_cons, List.any_cons, List.any_cons, ih]
      congr 1
      unfold applyReaction
      split <;> rfl

lemma next_article_hasExposure_mono (s : Nat → Summary) (db : DB) (u : String)
    (uid aid : Nat) (h : hasExposure db uid aid = true) :
    hasExposure (next_article s db u).1 uid aid = true := by
  obtain ⟨uid2, hg⟩ := get_or_create_user_ok db u
  rw [next_article_eq_of_ok_user s db u _ uid2 hg]
  apply loop_hasExposure_mono
  rw [hasExposure_congr db (insertUserIgnore db u) (insertUserIgnore_user_articles db u) uid aid]
  exact h

lemma react_hasExposure_mono (db : DB) (u : String) (inp : ReactIn)
    (uid aid : Nat) (h : hasExposure db uid aid = true) :
    hasExposure (react db u inp).1 uid aid = true := by
  obtain ⟨uid2, hg⟩ := get_or_create_user_ok db u
  rw [react_eq_of_ok_user db u inp _ uid2 hg]
  show ((insertUserIgnore db u).user_articles.map (applyReaction uid2 inp)).any _ = true
  rw [hasExposure_map_applyReaction, insertUserIgnore_user_articles db u]
  exact h

lemma runOp_hasExposure_mono (db : DB) (op : Op) (uid aid : Nat)
    (h : hasExposure db uid aid = true) :
    hasExposure (runOp db op) uid aid = true := by
  cases op with
  | callNextArticle s u => exact next_article_hasExposure_mono s db u uid aid h
  | callReact u inp => exact react_hasExposure_mono db u inp uid aid h

lemma runOp_users_extend (db : DB) (op : Op) :
    ∃ extra, (runOp db op).users = db.users ++ extra := by
  cases op with
  | callNextArticle s u =>
      obtain ⟨uid, hg⟩ := get_or_create_user_ok db u
      show ∃ extra, (next_article s db u).1.users = db.users ++ extra
      rw [next_article_eq_of_ok_user s db u _ uid hg, loop_users]
      exact insertUserIgnore_users_extend db u
  | callReact u inp =>
      obtain ⟨uid, hg⟩ := get_or_create_user_ok db u
      show ∃ extra, (react db u inp).1.users = db.users ++ extra
      rw [react_eq_of_ok_user db u inp _ uid hg]
      exact insertUserIgnore_users_extend db u

lemma findUser_stable (db : DB) (u : String) (row : UserRow)
    (h : findUser db u = some row) (db' : DB)
    (hext : ∃ extra, db'.users = db.users ++ extra) :
    findUser db' u = some row := by
  obtain ⟨extra, hx⟩ := hext
  unfold findUser at *
  rw [hx, List.find?_append, h]
  rfl

lemma foldl_runOp_stable (ops : List Op) :
    ∀ (db : DB) (uid aid : Nat) (row : UserRow) (u : String),
    hasExposure db uid aid = true → findUser db u = some row →
    hasExposure (ops.foldl runOp db) uid aid = true ∧
    findUser (ops.foldl runOp db) u = some row := by
  induction ops with
  | nil => exact fun db uid aid row u h1 h2 => ⟨h1, h2⟩
  | cons op rest ih =>
      intro db uid aid row u h1 h2
      exact ih (runOp db op) uid aid row u
        (runOp_hasExposure_mono db op uid aid h1)
        (findUser_stable db u row h2 (runOp db op) (runOp_users_extend db op))

/-! ### Claim C1: an article is never served twice to the same user -/

/-- C1: once `next_article` has returned payload `p` for user `u`, no
later `next_article` call for `u` — after any interleaving of further
`next_article` and `react` calls — returns an article with the same id;
and every attempt that serves did check that no exposure row existed for
(user, article) beforehand. -/
theorem next_article_never_repeats (s1 : Nat → Summary) (db : DB) (u : String)
    (db1 : DB) (p : ArticlePayload)
    (h1 : next_article s1 db u = (db1, .ok p))
    (ops : List Op) (db2 : DB) (h2 : db2 = ops.foldl runOp db1)
    (s2 : Nat → Summary) (db3 : DB) (p2 : ArticlePayload)
    (h3 : next_article s2 db2 u = (db3, .ok p2)) :
    p2.article_id ≠ p.article_id ∧
    ∀ (uidx : Nat) (js : Summary) (d d2 : DB) (q : ArticlePayload),
      attempt uidx js d = (d2, .served q) → hasExposure d uidx q.article_id = false := by
  rcases hg1 : get_or_create_user db u with ⟨dbA, r1⟩
  cases r1 with
  | error e =>
      rw [show next_article s1 db u = (dbA, .error e) from by
        unfold next_article; rw [hg1]] at h1
      simp at h1
  | ok uid =>
      have hloop1 : next_article_loop s1 uid 0 12 dbA = (db1, .ok p) := by
        rw [← next_article_eq_of_ok_user s1 db u dbA uid hg1]
        exact h1
      obtain ⟨hAeq, row, hfindA, hrowid⟩ := get_or_create_user_ok_inv db u dbA uid hg1
      obtain ⟨-, hua1⟩ := loop_ok_state s1 uid 12 0 dbA db1 p hloop1
      have hexp1 : hasExposure db1 uid p.article_id = true := by
        unfold hasExposure
        rw [hua1, List.any_append]
        simp
      have husers1 : db1.users = dbA.users := by
        have := loop_users s1 uid 12 0 dbA
        rw [hloop1] at this
        exact this
      have hfind1 : findUser db1 u = some row := by
        rw [findUser_congr dbA db1 husers1 u]
        exact hfindA
      obtain ⟨hexp2, hfind2⟩ := foldl_runOp_stable ops db1 uid p.article_id row u hexp1 hfind1
      rw [← h2] at hexp2 hfind2
      have hg2 : get_or_create_user db2 u = (db2, .ok uid) := by
        have := get_or_create_user_of_found db2 u row hfind2
        rw [hrowid] at this
        exact this
      have hloop2 : next_article_loop s2 uid 0 12 db2 = (db3, .ok p2) := by
        rw [← next_article_eq_of_ok_user s2 db2 u db2 uid hg2]
        exact h3
      obtain ⟨hexp3, -⟩ := loop_ok_state s2 uid 12 0 db2 db3 p2 hloop2
      constructor
      · intro hcontra
        rw [hcontra, hexp2] at hexp3
        cases hexp3
      · intro uidx js d d2 q hq
        exact (attempt_served_state uidx js d d2 q hq).1

/-! ### Claim C2: one unseen article or a 404 after 12 attempts -/

/-- C2: `next_article` either returns an article the user has not seen,
or fails with the 404 "No unseen article found (try again)" after all 12
attempts were rejected; and the call consults the upstream stream on at
most its first 12 positions (two streams agreeing there give identical
results). -/
theorem next_article_retry_budget (stream s2 : Nat → Summary) (db : DB) (u : String)
    (hagree : ∀ i, i < 12 → s2 i = stream i) :
    next_article s2 db u = next_article stream db u ∧
    ∃ uid, get_or_create_user db u = (insertUserIgnore db u, .ok uid) ∧
      ((∃ db' p, next_article stream db u = (db', .ok p) ∧
          hasExposure db uid p.article_id = false) ∨
       (∃ db', next_article stream db u =
            (db', .error ⟨404, "No unseen article found (try again)"⟩) ∧
          allRejected stream uid 0 12 (insertUserIgnore db u) = true)) := by
  obtain ⟨uid, hg⟩ := get_or_create_user_ok db u
  constructor
  · rw [next_article_eq_of_ok_user s2 db u _ uid hg,
      next_article_eq_of_ok_user stream db u _ uid hg]
    exact loop_congr stream s2 uid 12 0 (insertUserIgnore db u)
      (fun j h1 h2 => hagree j (by omega))
  · refine ⟨uid, hg, ?_⟩
    rcases hres : next_article_loop stream uid 0 12 (insertUserIgnore db u) with ⟨db', r⟩
    cases r with
    | ok p =>
        left
        refine ⟨db', p, ?_, ?_⟩
        · rw [next_article_eq_of_ok_user stream db u _ uid hg]
          exact hres
        · obtain ⟨hexp, -⟩ := loop_ok_state stream uid 12 0 _ db' p hres
          rw [← hasExposure_congr db (insertUserIgnore db u)
            (insertUserIgnore_user_articles db u) uid p.article_id]
          exact hexp
    | error e =>
        right
        obtain ⟨-, he, hrej⟩ := loop_error_state stream uid 12 0 _ db' e hres
        refine ⟨db', ?_, hrej⟩
        rw [next_article_eq_of_ok_user stream db u _ uid hg, hres, he]
        rfl

/-! ### Claim C10: the 404 path inserts no exposure, keeps article rows -/

/-- C10: when `next_article` fails, the exposure table is exactly as
before the call (no exposure row was inserted), while article rows
upserted during the call persist (the stored article list is only ever
extended, never rolled back); and a successful call appends exactly one
exposure row — the one for the article it returns — immediately before
returning. -/
theorem next_article_failure_no_rollback (stream : Nat → Summary) (db : DB)
    (u : String) (db' : DB) (e : HTTPException)
    (herr : next_article stream db u = (db', .error e)) :
    db'.user_articles = db.user_articles ∧
    (∃ extra, db'.articles = db.articles ++ extra) ∧
    ∀ (s2 : Nat → Summary) (d2 : DB) (u2 : String) (d3 : DB) (q : ArticlePayload),
      next_article s2 d2 u2 = (d3, .ok q) →
      ∃ uid2, d3.user_articles = d2.user_articles ++ [⟨uid2, q.article_id, false, none⟩] := by
  have hok : ∀ (s2 : Nat → Summary) (d2 : DB) (u2 : String) (d3 : DB) (q : ArticlePayload),
      next_article s2 d2 u2 = (d3, .ok q) →
      ∃ uid2, d3.user_articles = d2.user_articles ++ [⟨uid2, q.article_id, false, none⟩] := by
    intro s2 d2 u2 d3 q hq
    rcases hg : get_or_create_user d2 u2 with ⟨dA, r⟩
    cases r with
    | error e2 =>
        rw [show next_article s2 d2 u2 = (dA, .error e2) from by
          unfold next_article; rw [hg]] at hq
        simp at hq
    | ok uid2 =>
        have hloop : next_article_loop s2 uid2 0 12 dA = (d3, .ok q) := by
          rw [← next_article_eq_of_ok_user s2 d2 u2 dA uid2 hg]
          exact hq
        obtain ⟨-, hua⟩ := loop_ok_state s2 uid2 12 0 dA d3 q hloop
        obtain ⟨hAeq, -⟩ := get_or_create_user_ok_inv d2 u2 dA uid2 hg
        refine ⟨uid2, ?_⟩
        rw [hua, hAeq, insertUserIgnore_user_articles]
  obtain ⟨uid, hg⟩ := get_or_create_user_ok db u
  have hcall : next_article stream db u =
      next_article_loop stream uid 0 12 (insertUserIgnore db u) :=
    next_article_eq_of_ok_user stream db u _ uid hg
  rw [hcall] at herr
  obtain ⟨hua, -, -⟩ := loop_error_state stream uid 12 0 _ db' e herr
  refine ⟨?_, ?_, hok⟩
  · rw [hua, insertUserIgnore_user_articles]
  · obtain ⟨extra, hx⟩ := loop_articles_extend stream uid 12 0 (insertUserIgnore db u)
    rw [herr] at hx
    rw [insertUserIgnore_articles] at hx
    exact ⟨extra, hx⟩

/-! ### Witnesses: the claim theorems evaluated at concrete inputs -/

/-- C1 witness: serving "alice" twice from the empty store (pages 7 then
8, no intermediate operations) yields distinct article ids. -/
theorem next_article_never_repeats_witness :
    payload2.article_id ≠ payload1.article_id :=
  (next_article_never_repeats streamStd1 DB.empty "alice" dbAfter1 payload1 rfl
    [] dbAfter1 rfl streamStd2 dbAfter2 payload2 rfl).1

/-- C2 witness: the contract instantiated on a stream of disambiguation
pages for "bob" (the 404 branch with all 12 attempts rejected). -/
theorem next_article_retry_budget_witness :
    next_article streamDisambig DB.empty "bob" = next_article streamDisambig DB.empty "bob" ∧
    ∃ uid, get_or_create_user DB.empty "bob" = (insertUserIgnore DB.empty "bob", .ok uid) ∧
      ((∃ db' p, next_article streamDisambig DB.empty "bob" = (db', .ok p) ∧
          hasExposure DB.empty uid p.article_id = false) ∨
       (∃ db', next_article streamDisambig DB.empty "bob" =
            (db', .error ⟨404, "No unseen article found (try again)"⟩) ∧
          allRejected streamDisambig uid 0 12 (insertUserIgnore DB.empty "bob") = true)) :=
  next_article_retry_budget streamDisambig streamDisambig DB.empty "bob" (fun _ _ => rfl)

/-- C4 witness: upserting page 7 twice on the empty store, with changed
title/url the second time, returns the same state and id, and the stored
row keeps the first title/url. -/
theorem ensure_article_idempotent_witness :
    ensure_article (ensure_article DB.empty "ja" 7 "T1" "u1").1 "ja" 7 "T2" "u2" =
      ensure_article DB.empty "ja" 7 "T1" "u1" ∧
    findArticle (ensure_article (ensure_article DB.empty "ja" 7 "T1" "u1").1 "ja" 7 "T2" "u2").1
        "ja" 7 = some ⟨1, "ja", 7, "T1", "u1"⟩ :=
  ⟨(ensure_article_idempotent DB.empty "ja" 7 "T1" "u1" "T2" "u2").1,
    (ensure_article_idempotent DB.empty "ja" 7 "T1" "u1" "T2" "u2").2 rfl⟩

/-- C5 witness: the disambiguation summary is rejected on the empty
store without a write, and the loop steps to the next attempt. -/
theorem nonstandard_type_rejected_witness :
    attempt 1 sumDisambig DB.empty = (DB.empty, .rejected) ∧
    next_article_loop streamDisambig 1 0 (3 + 1) DB.empty =
      next_article_loop streamDisambig 1 1 3 DB.empty ∧
    ∀ js2 : Summary,
      (type_rejected js2 = false ↔ (js2.type = none ∨ js2.type = some "standard")) :=
  nonstandard_type_rejected 1 sumDisambig DB.empty streamDisambig 0 3 DB.empty
    "disambiguation" rfl (by decide) rfl

/-- C6 witness: reacting for "carol" on the empty store (no exposure row
for article 5) leaves the exposure table unchanged. -/
theorem react_always_ok_witness :
    (react DB.empty "carol" ⟨5, .like⟩).1.user_articles = DB.empty.user_articles := by
  obtain ⟨uid, -, -, hno⟩ := react_always_ok DB.empty "carol" ⟨5, Reaction.like⟩
  exact hno rfl

/-- C7 witness: a transport error, a 404 status and a 200 status, each
run through `article_content` with concrete parser/converter/renderer. -/
theorem article_content_gateway_witness :
    article_content trivialParse identityMd renderFixed (.transportError "boom") .markdown =
      .error ⟨502, "failed to fetch url: boom"⟩ ∧
    article_content trivialParse identityMd renderFixed (.response 404 "x" "u") .markdown =
      .error ⟨502, "failed to fetch url: " ++ renderFixed 404 "u"⟩ ∧
    article_content trivialParse identityMd renderFixed (.response 200 "x" "u") .markdown =
      .ok ⟨(extract_wikipedia_main_html (trivialParse "x") "x").1, "u", .markdown,
        html_to_markdown identityMd (extract_wikipedia_main_html (trivialParse "x") "x").2⟩ := by
  refine ⟨?_, ?_, ?_⟩
  · exact (article_content_gateway trivialParse identityMd renderFixed
      (.transportError "boom") .markdown).1 "boom" rfl
  · exact (article_content_gateway trivialParse identityMd renderFixed
      (.response 404 "x" "u") .markdown).2.1 404 "x" "u" rfl (by decide)
  · exact (article_content_gateway trivialParse identityMd renderFixed
      (.response 200 "x" "u") .markdown).2.2 200 "x" "u" rfl (by decide)

/-- C8 witness: a document without the content container returns the raw
HTML verbatim and the stripped heading text. -/
theorem extract_fallback_verbatim_witness :
    extract_wikipedia_main_html docNoContent "<raw html>" = (some "Hello", "<raw html>") := by
  have h := (extract_fallback_verbatim docNoContent "<raw html>" rfl).1
  rw [h]
  rfl

/-- C9 witness: a standard summary with `pageid == 0` fails the field
check and is rejected without a write. -/
theorem falsy_fields_rejected_witness :
    fields_ok sumZeroId = false ∧ attempt 1 sumZeroId DB.empty = (DB.empty, .rejected) :=
  falsy_fields_rejected 1 sumZeroId DB.empty rfl (Or.inl rfl)

/-- C10 witness: the fully rejected call for "dave" leaves no exposure
row and its article table unchanged from the empty store. -/
theorem next_article_failure_no_rollback_witness :
    dbDave.user_articles = DB.empty.user_articles ∧
    (∃ extra, dbDave.articles = DB.empty.articles ++ extra) ∧
    ∀ (s2 : Nat → Summary) (d2 : DB) (u2 : String) (d3 : DB) (q : ArticlePayload),
      next_article s2 d2 u2 = (d3, .ok q) →
      ∃ uid2, d3.user_articles = d2.user_articles ++ [⟨uid2, q.article_id, false, none⟩] :=
  next_article_failure_no_rollback streamDisambig DB.empty "dave" dbDave noUnseenError rfl

end Wikipediagpts
